import Mathlib

/-!
Verification development for the aws-nlb-controller repository.

The development shallowly embeds the three components of the core:

* the in-memory allocation ledger (package store, file store.go);
* the AWS provider adapter (package aws), with the ELB SDK represented as
  an oracle record of pure functions, one per SDK call the adapter makes;
* the reconciler (package controllers), with the Kubernetes client and the
  AwsClient interface represented as oracle records, and the outcome of a
  reconciliation pass recorded together with the list of provider-mutating
  calls it issued.

Go maps are embedded as functions into Option; a missing key is none.  A Go
map whose value type is itself a map can be absent (nil), which is why the
outer nlb allocation index has type String → Option (Int → Option String):
reading through a nil inner map yields the zero value (none), while writing
to a nil inner map panics, which the embedding surfaces as an explicit
panicked result.  Go int is embedded as Int.  Map iteration order of a Go
range statement is not specified, so the scan of GetVacantNLBAndPortForService
takes the iteration order of the outer map as an explicit list parameter.
-/

/-- Allocation record, store.go lines 27-33. -/
structure Allocation where
  listenerArn : String
  targetArn : String
  nlb : String
  port : Int
  serviceNamespacedName : String
deriving DecidableEq

/-- The store struct, store.go lines 38-42.  ServiceAllocationMap maps a
namespaced service name to its Allocation; NlbAllocationMap maps an nlb name
to a port-indexed map of owning service names; NlbHosts maps an nlb name to
its host. -/
structure StoreState where
  serviceAllocationMap : String → Option Allocation
  nlbAllocationMap : String → Option (Int → Option String)
  nlbHosts : String → Option String

/-- Reading s.NlbAllocationMap[nlb][port] in Go: reading through a missing
outer key gives the nil inner map, whose reads give the zero value. -/
def nlbLookup (s : StoreState) (nlb : String) (p : Int) : Option String :=
  match s.nlbAllocationMap nlb with
  | none => none
  | some inner => inner p

/-- The Go statement s.NlbAllocationMap[nlb][port] = owner for a present
outer key holding the map inner (store.go lines 75 and 92). -/
def setNlbSlot (s : StoreState) (nlb : String) (inner : Int → Option String)
    (p : Int) (owner : String) : StoreState :=
  { s with nlbAllocationMap := fun lb =>
      if lb = nlb then some (fun q => if q = p then some owner else inner q)
      else s.nlbAllocationMap lb }

/-- The Go statement s.ServiceAllocationMap[name] = v (write or delete). -/
def svcMapSet (s : StoreState) (name : String) (v : Option Allocation) : StoreState :=
  { s with serviceAllocationMap := fun n =>
      if n = name then v else s.serviceAllocationMap n }

/-- GetNLBHost, store.go lines 44-46. -/
def GetNLBHost (s : StoreState) (nlb : String) : String :=
  (s.nlbHosts nlb).getD ""

/-- GetAllocationForSVC, store.go lines 48-50. -/
def GetAllocationForSVC (s : StoreState) (name : String) : Option Allocation :=
  s.serviceAllocationMap name

/-- Result of GetListenerArnFor: the Go body dereferences the pointer
returned by the map read, so a missing entry is a nil-pointer panic. -/
inductive ArnResult where
  | ok (arn : String)
  | panicked
deriving DecidableEq

/-- GetListenerArnFor, store.go lines 52-54. -/
def GetListenerArnFor (s : StoreState) (serviceNamespacedName : String) : ArnResult :=
  match s.serviceAllocationMap serviceNamespacedName with
  | none => .panicked
  | some a => .ok a.listenerArn

/-- Result of AssignNLBAndPortToServiceInNamespace.  conflict carries the
error message and the store as left by the early return (unchanged);
panicked is the Go runtime panic raised by writing into a nil inner map. -/
inductive AssignResult where
  | ok (s : StoreState)
  | conflict (msg : String) (s : StoreState)
  | panicked

/-- Lines 67-76 of store.go: build the Allocation value, write the service
index, then write the nlb index; the second write panics when the outer map
has no entry for nlb (assignment to an entry of a nil map). -/
def assignWrite (s : StoreState) (nlb : String) (p : Int)
    (serviceNamespacedName listenerArn targetArn : String) : AssignResult :=
  match (svcMapSet s serviceNamespacedName
      (some ⟨listenerArn, targetArn, nlb, p, serviceNamespacedName⟩)).nlbAllocationMap nlb with
  | none => .panicked
  | some inner =>
      .ok (setNlbSlot (svcMapSet s serviceNamespacedName
        (some ⟨listenerArn, targetArn, nlb, p, serviceNamespacedName⟩))
        nlb inner p serviceNamespacedName)

/-- AssignNLBAndPortToServiceInNamespace, store.go lines 56-77. -/
def AssignNLBAndPortToServiceInNamespace (s : StoreState) (nlb : String) (p : Int)
    (serviceNamespacedName listenerArn targetArn : String) : AssignResult :=
  match nlbLookup s nlb p with
  | some owner =>
      if owner ≠ serviceNamespacedName then
        .conflict ("port reserved for svc " ++ owner) s
      else assignWrite s nlb p serviceNamespacedName listenerArn targetArn
  | none => assignWrite s nlb p serviceNamespacedName listenerArn targetArn

/-- The Go statement delete(s.NlbAllocationMap[nlb], port) for a present
outer key holding the map inner (store.go line 82). -/
def delNlbSlot (s : StoreState) (nlb : String) (inner : Int → Option String)
    (p : Int) : StoreState :=
  { s with nlbAllocationMap := fun lb =>
      if lb = nlb then some (fun q => if q = p then none else inner q)
      else s.nlbAllocationMap lb }

/-- Lines 81-83 of store.go: when the nlb index has an entry at
(val.NLB, val.Port), delete that slot; otherwise leave the store as is. -/
def releaseInner (s : StoreState) (val : Allocation) : StoreState :=
  match s.nlbAllocationMap val.nlb with
  | none => s
  | some inner =>
      match inner val.port with
      | none => s
      | some _ => delNlbSlot s val.nlb inner val.port

/-- ReleaseNLBAndPortForService, store.go lines 79-86.  The nlb and port
parameters of the Go function are accepted but never read: the body looks up
ServiceAllocationMap[serviceNamespacedName] and, when an entry exists,
deletes the (val.NLB, val.Port) slot of the nlb index (when present) and the
service index entry; otherwise it is a no-op. -/
def ReleaseNLBAndPortForService (s : StoreState) (serviceNamespacedName : String)
    (_nlb : String) (_port : Int) : StoreState :=
  match s.serviceAllocationMap serviceNamespacedName with
  | none => s
  | some val => svcMapSet (releaseInner s val) serviceNamespacedName none

/-- The inner loop of GetVacantNLBAndPortForService, store.go lines 90-95:
scan count consecutive ports starting at start, returning the first one
missing from the inner map.  The Go condition !ok && value == nil is
equivalent to !ok because present values are never nil pointers. -/
def firstFreePortInRange (inner : Int → Option String) : Nat → Int → Option Int
  | 0, _ => none
  | n + 1, start =>
      match inner start with
      | none => some start
      | some _ => firstFreePortInRange inner n (start + 1)

/-- Result of GetVacantNLBAndPortForService. -/
inductive VacantResult where
  | ok (nlb : String) (port : Int) (s : StoreState)
  | exhausted

/-- GetVacantNLBAndPortForService, store.go lines 88-98.  The range statement
over the outer Go map is embedded by passing the iteration order explicitly;
a run of the Go code corresponds to some permutation of the keys of the
map.  The chosen slot is written into the nlb index only; the service index
is not touched. -/
def GetVacantNLBAndPortForService (s : StoreState) (serviceNamespacedName : String) :
    List String → VacantResult
  | [] => .exhausted
  | nlb :: rest =>
      match s.nlbAllocationMap nlb with
      | none => GetVacantNLBAndPortForService s serviceNamespacedName rest
      | some inner =>
          match firstFreePortInRange inner 50 9000 with
          | none => GetVacantNLBAndPortForService s serviceNamespacedName rest
          | some p => .ok nlb p (setNlbSlot s nlb inner p serviceNamespacedName)

/-- Whether an nlb entry of the ledger has at least one free port in the
scanned range. -/
def nlbHasFree (s : StoreState) (lb : String) : Bool :=
  match s.nlbAllocationMap lb with
  | none => false
  | some inner => (firstFreePortInRange inner 50 9000).isSome

/-- The store produced by New/loadNlbData for a configured pool of nlb
names: an empty service index and one empty inner map per pool member
(hosts are irrelevant to the ledger claims and left empty). -/
def initialStore (pool : List String) : StoreState :=
  { serviceAllocationMap := fun _ => none
    nlbAllocationMap := fun lb => if pool.contains lb then some (fun _ => none) else none
    nlbHosts := fun _ => none }

/-- A store with nothing in it, used only as a default for projections. -/
def dummyStore : StoreState :=
  { serviceAllocationMap := fun _ => none
    nlbAllocationMap := fun _ => none
    nlbHosts := fun _ => none }

/-- Digit-list parser used by the embedding of strconv.Atoi: consume decimal
digits, failing on the first non-digit. -/
def parseDigits : List Char → Nat → Option Nat
  | [], acc => some acc
  | c :: cs, acc =>
      if c.isDigit then parseDigits cs (acc * 10 + (c.toNat - 48)) else none

/-- strconv.Atoi as used by the reconciler: optional sign followed by at
least one digit; anything else is a parse error (none).  Overflow of the
64-bit Go int is not modelled; the parsed annotation values in this system
are ports far below that bound. -/
def goAtoi (str : String) : Option Int :=
  match str.data with
  | [] => none
  | '-' :: rest =>
      match rest with
      | [] => none
      | _ => (parseDigits rest 0).map (fun n => -(n : Int))
  | '+' :: rest =>
      match rest with
      | [] => none
      | _ => (parseDigits rest 0).map (fun n => (n : Int))
  | l => (parseDigits l 0).map (fun n => (n : Int))

/-- strconv.Itoa: decimal representation of the integer. -/
def goItoa (n : Int) : String := toString n

/-- An error value returned by an ELB SDK call; isNotFoundOnDelete records
whether the provider reported the deleted object as already absent. -/
structure AwsApiError where
  isNotFoundOnDelete : Bool
  msg : String
deriving DecidableEq

/-- The two ELB SDK calls made by the aws adapter function
DeleteListenerAndTargetArn, as an oracle of pure functions. -/
structure ElbApi where
  deleteListener : String → Except AwsApiError Unit
  deleteTargetGroup : String → Except AwsApiError Unit

/-- DeleteListenerAndTargetArn of the aws adapter (package aws, lines 24-34):
call DeleteListener, return its error if any; then call DeleteTargetGroup,
return its error if any; otherwise success.  Every SDK error, including a
not-found error, is propagated unchanged. -/
def DeleteListenerAndTargetArn (elb : ElbApi) (listenerArn targetArn : String) :
    Except AwsApiError Unit :=
  match elb.deleteListener listenerArn with
  | .error e => .error e
  | .ok _ =>
      match elb.deleteTargetGroup targetArn with
      | .error e => .error e
      | .ok _ => .ok ()

/-- The annotation keys of the controller (controller file, lines 34-41). -/
def serviceAnnotationKey : String := "github.com/chinmayrelkar/service"

/-- Key carrying the nlb host. -/
def nlbAnnotationNLBHost : String := "service-nlb-host"

/-- Key carrying the nlb name. -/
def nlbAnnotationNLBName : String := "service-nlb-name"

/-- Key carrying the allocated nlb port. -/
def nlbAnnotationPort : String := "service-nlb-port"

/-- Key carrying the listener ARN. -/
def nlbAnnotationListener : String := "service-nlb-listener"

/-- Key carrying the target group ARN. -/
def nlbAnnotationTarget : String := "service-nlb-target"

/-- The subset of a corev1.Service the reconciler reads: whether
Spec.Type is NodePort, the annotation map (a Go map read of a missing key
yields the empty string), and Spec.Ports[0].NodePort.  The embedding
assumes Ports is non-empty, as every reconciled path of the source does. -/
structure Service where
  specTypeIsNodePort : Bool
  annotations : String → String
  nodePort : Int

/-- The five annotation writes of the controller (lines 186-190).  The keys
are pairwise distinct so the write order is immaterial. -/
def withBindingAnnots (svc : Service) (nlbName hostStr portStr listenerArn targetArn : String) :
    Service :=
  { svc with annotations := fun k =>
      if k = nlbAnnotationTarget then targetArn
      else if k = nlbAnnotationListener then listenerArn
      else if k = nlbAnnotationPort then portStr
      else if k = nlbAnnotationNLBHost then hostStr
      else if k = nlbAnnotationNLBName then nlbName
      else svc.annotations k }

/-- The AwsClient interface as the reconciler consumes it, as an oracle of
pure functions standing for the provider. -/
structure AwsOracle where
  createNLBListenerForPort : String → Int → Int → String → Except String (String × String)
  checkListener : String → String → String → Int → Int → Except String Unit
  deleteListenerAndTargetArn : String → String → Except String Unit

/-- Outcome of r.Get for the reconciled service: Kubernetes not-found,
another fetch error, or the service object. -/
inductive GetSvcResult where
  | notFoundErr
  | otherErr (msg : String)
  | found (svc : Service)

/-- An error returned by r.Update, with its apierrors.IsNotFound status. -/
structure UpdateErr where
  isNotFound : Bool
  msg : String
deriving DecidableEq

/-- Result of checkAllocationValidity; failed carries the store as left at
the early return, panicked is a runtime panic escaping the call. -/
inductive ValidityResult where
  | passed (s : StoreState)
  | failed (msg : String) (s : StoreState)
  | panicked

/-- checkAllocationValidity (controller file, lines 218-250): ask the
provider to check the recorded listener, then re-reserve the recorded pair
in the ledger via AssignNLBAndPortToServiceInNamespace. -/
def checkAllocationValidity (aws : AwsOracle) (s : StoreState) (serviceName : String)
    (svcAllocatedListenerArn svcAllocatedTargetArn svcAllocatedNLB : String)
    (svcAllocatedPort svcAllocatedNodePort : Int) : ValidityResult :=
  match aws.checkListener svcAllocatedListenerArn svcAllocatedTargetArn svcAllocatedNLB
      svcAllocatedPort svcAllocatedNodePort with
  | .error e => .failed e s
  | .ok _ =>
      match AssignNLBAndPortToServiceInNamespace s svcAllocatedNLB svcAllocatedPort
          serviceName svcAllocatedListenerArn svcAllocatedTargetArn with
      | .panicked => .panicked
      | .conflict msg s' => .failed msg s'
      | .ok s' => .passed s'

/-- What one reconciliation pass produced: the ctrl.Result requeue flag, the
returned error, the store as mutated by the pass, and the traces of the
provider-mutating calls (CreateNLBListenerForPort and
DeleteListenerAndTargetArn arguments, in order) and of the r.Update calls. -/
structure ReconcileOutcome where
  requeue : Bool
  err : Option String
  store : StoreState
  createCalls : List (String × Int × Int × String)
  deleteCalls : List (String × String)
  updateCalls : List Service

/-- A reconciliation pass either returns an outcome or panics. -/
inductive ReconcileResult where
  | ok (o : ReconcileOutcome)
  | panicked

/-- Allocation section of Reconcile (controller file, lines 146-208):
find a vacant pair, create the listener, record the allocation, write the
binding annotations, with the failure compensations of the source. -/
def allocPath (s : StoreState) (aws : AwsOracle) (update : Service → Except UpdateErr Unit)
    (svc : Service) (serviceName : String) (order : List String) : ReconcileResult :=
  match GetVacantNLBAndPortForService s serviceName order with
  | .exhausted => .ok ⟨true, some "no vacancy found", s, [], [], []⟩
  | .ok nlb nlbPort s1 =>
      let nodePort := svc.nodePort
      match aws.createNLBListenerForPort nlb nlbPort nodePort serviceName with
      | .error e =>
          .ok ⟨true, some e, ReleaseNLBAndPortForService s1 serviceName nlb nlbPort,
            [(nlb, nlbPort, nodePort, serviceName)], [], []⟩
      | .ok (listenerArn, targetArn) =>
          match AssignNLBAndPortToServiceInNamespace s1 nlb nlbPort serviceName
              listenerArn targetArn with
          | .panicked => .panicked
          | .conflict msg s2 =>
              let s3 := ReleaseNLBAndPortForService s2 serviceName nlb nlbPort
              match aws.deleteListenerAndTargetArn listenerArn targetArn with
              | .error e2 =>
                  .ok ⟨false, some e2, s3, [(nlb, nlbPort, nodePort, serviceName)],
                    [(listenerArn, targetArn)], []⟩
              | .ok _ =>
                  .ok ⟨true, some msg, s3, [(nlb, nlbPort, nodePort, serviceName)],
                    [(listenerArn, targetArn)], []⟩
          | .ok s2 =>
              let svc2 := withBindingAnnots svc nlb (GetNLBHost s2 nlb) (goItoa nlbPort)
                listenerArn targetArn
              match update svc2 with
              | .error ue =>
                  let s3 := ReleaseNLBAndPortForService s2 serviceName "" 0
                  match aws.deleteListenerAndTargetArn listenerArn targetArn with
                  | .error e2 =>
                      .ok ⟨false, some e2, s3, [(nlb, nlbPort, nodePort, serviceName)],
                        [(listenerArn, targetArn)], [svc2]⟩
                  | .ok _ =>
                      if ue.isNotFound then
                        .ok ⟨false, none, s3, [(nlb, nlbPort, nodePort, serviceName)],
                          [(listenerArn, targetArn)], [svc2]⟩
                      else
                        .ok ⟨true, none, s3, [(nlb, nlbPort, nodePort, serviceName)],
                          [(listenerArn, targetArn)], [svc2]⟩
              | .ok _ =>
                  .ok ⟨false, none, s2, [(nlb, nlbPort, nodePort, serviceName)], [], [svc2]⟩

/-- Reconcile (controller file, lines 60-209).  Note two behaviours of the
source that the embedding preserves exactly: (1) when the service is of type
NodePort but the opt-in annotation is not "true", the code merely logs
"svc not a NodePort service. Skipping" and falls through to allocation — the
isNodePortService flag never gates any branch; (2) the validity path feeds
the nlb name read from the service annotations straight into
AssignNLBAndPortToServiceInNamespace. -/
def Reconcile (s : StoreState) (aws : AwsOracle) (update : Service → Except UpdateErr Unit)
    (getSvc : GetSvcResult) (serviceName : String) (order : List String) : ReconcileResult :=
  match getSvc with
  | .notFoundErr =>
      match GetAllocationForSVC s serviceName with
      | none => .ok ⟨false, none, s, [], [], []⟩
      | some alloc =>
          match aws.deleteListenerAndTargetArn alloc.listenerArn alloc.targetArn with
          | .error e =>
              .ok ⟨true, some e, s, [], [(alloc.listenerArn, alloc.targetArn)], []⟩
          | .ok _ =>
              .ok ⟨false, none,
                ReleaseNLBAndPortForService s serviceName alloc.nlb alloc.port,
                [], [(alloc.listenerArn, alloc.targetArn)], []⟩
  | .otherErr e => .ok ⟨true, some e, s, [], [], []⟩
  | .found svc =>
      if !svc.specTypeIsNodePort then .ok ⟨false, none, s, [], [], []⟩
      else
        if svc.annotations nlbAnnotationNLBName ≠ "" then
          match goAtoi (svc.annotations nlbAnnotationPort) with
          | none => allocPath s aws update svc serviceName order
          | some svcAllocatedPort =>
              match checkAllocationValidity aws s serviceName
                  (svc.annotations nlbAnnotationListener)
                  (svc.annotations nlbAnnotationTarget)
                  (svc.annotations nlbAnnotationNLBName)
                  svcAllocatedPort svc.nodePort with
              | .panicked => .panicked
              | .failed _ s' => allocPath s' aws update svc serviceName order
              | .passed s' => .ok ⟨false, none, s', [], [], []⟩
        else allocPath s aws update svc serviceName order

/-- Projection: create-call trace of a pass (empty on panic). -/
def rcCreateCalls : ReconcileResult → List (String × Int × Int × String)
  | .ok o => o.createCalls
  | .panicked => []

/-- Projection: delete-call trace of a pass (empty on panic). -/
def rcDeleteCalls : ReconcileResult → List (String × String)
  | .ok o => o.deleteCalls
  | .panicked => []

/-- Projection: update-call trace of a pass (empty on panic). -/
def rcUpdateCalls : ReconcileResult → List Service
  | .ok o => o.updateCalls
  | .panicked => []

/-- Projection: requeue flag of a pass (false on panic). -/
def rcRequeue : ReconcileResult → Bool
  | .ok o => o.requeue
  | .panicked => false

/-- Projection: returned error of a pass (none on panic). -/
def rcErr : ReconcileResult → Option String
  | .ok o => o.err
  | .panicked => none

/-- Projection: store left by a pass (a dummy on panic). -/
def rcStore : ReconcileResult → StoreState
  | .ok o => o.store
  | .panicked => dummyStore

/-- One ledger operation, as named in claim C4: a reserve, a free-slot scan
(with the map iteration order of that run), or a release. -/
inductive LedgerOp where
  | assignOp (nlb : String) (port : Int) (serviceNamespacedName listenerArn targetArn : String)
  | vacantOp (serviceNamespacedName : String) (order : List String)
  | releaseOp (serviceNamespacedName nlb : String) (port : Int)

/-- Apply one ledger operation.  An error return (conflict, exhaustion)
leaves the store as the operation left it; a panic aborts the run (none). -/
def applyOp : LedgerOp → StoreState → Option StoreState
  | .assignOp nlb p svcName la ta, s =>
      match AssignNLBAndPortToServiceInNamespace s nlb p svcName la ta with
      | .ok s' => some s'
      | .conflict _ s' => some s'
      | .panicked => none
  | .vacantOp svcName order, s =>
      match GetVacantNLBAndPortForService s svcName order with
      | .ok _ _ s' => some s'
      | .exhausted => some s
  | .releaseOp svcName nlb p, s => some (ReleaseNLBAndPortForService s svcName nlb p)

/-- Apply a sequence of ledger operations, aborting on a panic. -/
def applyOps : List LedgerOp → StoreState → Option StoreState
  | [], s => some s
  | op :: ops, s =>
      match applyOp op s with
      | none => none
      | some s' => applyOps ops s'

/-- The inductive ledger invariant: every allocation of the service index is
backed by the matching owner entry in the nlb index. -/
def LedgerInv (s : StoreState) : Prop :=
  ∀ svcName a, s.serviceAllocationMap svcName = some a →
    nlbLookup s a.nlb a.port = some svcName

/-- Service svcName holds the pair (lb, p): its allocation record names the
pair, or the pair-indexed side of the ledger names it as owner. -/
def Holds (s : StoreState) (svcName lb : String) (p : Int) : Prop :=
  (∃ a, s.serviceAllocationMap svcName = some a ∧ a.nlb = lb ∧ a.port = p) ∨
    nlbLookup s lb p = some svcName

/-- Provider oracle answering every call successfully, used by the concrete
evaluations below. -/
def awsAllOk : AwsOracle :=
  { createNLBListenerForPort := fun _ _ _ _ => .ok ("arn-l", "arn-t")
    checkListener := fun _ _ _ _ _ => .ok ()
    deleteListenerAndTargetArn := fun _ _ => .ok () }

/-- Provider oracle whose listener creation fails. -/
def awsCreateFails : AwsOracle :=
  { createNLBListenerForPort := fun _ _ _ _ => .error "aws down"
    checkListener := fun _ _ _ _ _ => .ok ()
    deleteListenerAndTargetArn := fun _ _ => .error "aws down" }

/-- Provider oracle whose creation succeeds and whose deletion fails. -/
def awsDeleteFails : AwsOracle :=
  { createNLBListenerForPort := fun _ _ _ _ => .ok ("arn-l", "arn-t")
    checkListener := fun _ _ _ _ _ => .ok ()
    deleteListenerAndTargetArn := fun _ _ => .error "delete down" }

/-- Cluster update oracle that always succeeds. -/
def updateOk : Service → Except UpdateErr Unit := fun _ => .ok ()

/-- Cluster update oracle that always fails with a non-not-found error. -/
def updateFails : Service → Except UpdateErr Unit := fun _ => .error ⟨false, "update failed"⟩

/-- A NodePort service carrying the opt-in annotation and nothing else. -/
def svcOptedIn : Service :=
  { specTypeIsNodePort := true
    annotations := fun k => if k = serviceAnnotationKey then "true" else ""
    nodePort := 30000 }

/-- A NodePort service with no annotations at all: not opted in. -/
def svcNoOptIn : Service :=
  { specTypeIsNodePort := true
    annotations := fun _ => ""
    nodePort := 30000 }

/-- ELB oracle on which both deletes succeed. -/
def elbAllOk : ElbApi :=
  { deleteListener := fun _ => .ok ()
    deleteTargetGroup := fun _ => .ok () }

/-- ELB oracle on which deleting the listener reports not-found. -/
def elbNotFoundOnDelete : ElbApi :=
  { deleteListener := fun _ => .error ⟨true, "ListenerNotFound"⟩
    deleteTargetGroup := fun _ => .ok () }

/-- Projection: the pair returned by a free-slot scan, if any. -/
def vacantPair : VacantResult → Option (String × Int)
  | .ok nlb p _ => some (nlb, p)
  | .exhausted => none

/-- Projection: the store returned by a free-slot scan (a dummy on
exhaustion). -/
def vacantStateOf : VacantResult → StoreState
  | .ok _ _ s => s
  | .exhausted => dummyStore

/-- Ledger state reached from the one-nlb pool by a single reserve. -/
def c4wState : StoreState :=
  (applyOps [LedgerOp.assignOp "lb1" 9000 "ns/a" "L" "T"] (initialStore ["lb1"])).getD dummyStore

/-- A two-nlb pool with every port free. -/
def c6State : StoreState := initialStore ["a", "b"]

/-- The store produced by scanning c6State in the order a, b. -/
def c6ResState : StoreState :=
  vacantStateOf (GetVacantNLBAndPortForService c6State "ns/x" ["a", "b"])

/-- The store produced by scanning the one-nlb pool for ns/a. -/
def c7S1 : StoreState :=
  vacantStateOf (GetVacantNLBAndPortForService (initialStore ["lb1"]) "ns/a" ["lb1"])

theorem setNlbSlot_svcMap (s : StoreState) (nlb : String) (inner : Int → Option String)
    (p : Int) (o : String) :
    (setNlbSlot s nlb inner p o).serviceAllocationMap = s.serviceAllocationMap := rfl

theorem setNlbSlot_hosts (s : StoreState) (nlb : String) (inner : Int → Option String)
    (p : Int) (o : String) :
    (setNlbSlot s nlb inner p o).nlbHosts = s.nlbHosts := rfl

theorem nlbLookup_setNlbSlot (s : StoreState) (nlb : String) (inner : Int → Option String)
    (p : Int) (o : String) (lb : String) (q : Int) :
    nlbLookup (setNlbSlot s nlb inner p o) lb q =
      if lb = nlb then (if q = p then some o else inner q) else nlbLookup s lb q := by
  by_cases h : lb = nlb <;> simp [nlbLookup, setNlbSlot, h]

theorem setNlbSlot_map_at (s : StoreState) (nlb : String) (inner : Int → Option String)
    (p : Int) (o : String) :
    (setNlbSlot s nlb inner p o).nlbAllocationMap nlb =
      some (fun q => if q = p then some o else inner q) := by
  simp [setNlbSlot]

theorem svcMapSet_nlbMap (s : StoreState) (name : String) (v : Option Allocation) :
    (svcMapSet s name v).nlbAllocationMap = s.nlbAllocationMap := rfl

theorem nlbLookup_svcMapSet (s : StoreState) (name : String) (v : Option Allocation)
    (lb : String) (q : Int) :
    nlbLookup (svcMapSet s name v) lb q = nlbLookup s lb q := rfl

theorem svcMapSet_at (s : StoreState) (name : String) (v : Option Allocation) :
    (svcMapSet s name v).serviceAllocationMap name = v := by
  simp [svcMapSet]

theorem svcMapSet_ne (s : StoreState) (name : String) (v : Option Allocation)
    (n : String) (h : n ≠ name) :
    (svcMapSet s name v).serviceAllocationMap n = s.serviceAllocationMap n := by
  simp [svcMapSet, h]

theorem firstFree_some (inner : Int → Option String) :
    ∀ (n : Nat) (start p : Int), firstFreePortInRange inner n start = some p →
      start ≤ p ∧ p < start + (n : Int) ∧ inner p = none ∧
        ∀ q : Int, start ≤ q → q < p → inner q ≠ none := by
  intro n
  induction n with
  | zero => intro start p h; simp [firstFreePortInRange] at h
  | succ m ih =>
      intro start p h
      simp only [firstFreePortInRange] at h
      cases hst : inner start with
      | none =>
          rw [hst] at h
          simp only [Option.some.injEq] at h
          subst h
          refine ⟨le_refl _, by omega, hst, ?_⟩
          intro q h1 h2 _
          omega
      | some v =>
          rw [hst] at h
          obtain ⟨ih1, ih2, ih3, ih4⟩ := ih (start + 1) p h
          refine ⟨by omega, by omega, ih3, ?_⟩
          intro q h1 h2
          by_cases hq : q = start
          · subst hq; simp [hst]
          · exact ih4 q (by omega) h2

theorem firstFree_none (inner : Int → Option String) :
    ∀ (n : Nat) (start : Int), firstFreePortInRange inner n start = none →
      ∀ q : Int, start ≤ q → q < start + (n : Int) → inner q ≠ none := by
  intro n
  induction n with
  | zero => intro start _ q h1 h2 _; omega
  | succ m ih =>
      intro start h q h1 h2
      simp only [firstFreePortInRange] at h
      cases hst : inner start with
      | none => rw [hst] at h; simp at h
      | some v =>
          rw [hst] at h
          by_cases hq : q = start
          · subst hq; simp [hst]
          · exact ih (start + 1) h q (by omega) (by omega)

theorem getVacant_ok_spec (s : StoreState) (svcName : String) :
    ∀ (order : List String) (nlb : String) (p : Int) (s' : StoreState),
      GetVacantNLBAndPortForService s svcName order = .ok nlb p s' →
      ∃ pre post inner, order = pre ++ nlb :: post ∧
        (∀ lb, lb ∈ pre → nlbHasFree s lb = false) ∧
        s.nlbAllocationMap nlb = some inner ∧
        firstFreePortInRange inner 50 9000 = some p ∧
        s' = setNlbSlot s nlb inner p svcName := by
  intro order
  induction order with
  | nil => intro nlb p s' h; simp [GetVacantNLBAndPortForService] at h
  | cons hd tl ih =>
      intro nlb p s' h
      simp only [GetVacantNLBAndPortForService] at h
      cases hmap : s.nlbAllocationMap hd with
      | none =>
          simp only [hmap] at h
          obtain ⟨pre, post, inner, h1, h2, h3, h4, h5⟩ := ih nlb p s' h
          refine ⟨hd :: pre, post, inner, by rw [h1]; rfl, ?_, h3, h4, h5⟩
          intro lb hlb
          rcases List.mem_cons.mp hlb with rfl | hlb
          · simp [nlbHasFree, hmap]
          · exact h2 lb hlb
      | some inner0 =>
          simp only [hmap] at h
          cases hff : firstFreePortInRange inner0 50 9000 with
          | none =>
              simp only [hff] at h
              obtain ⟨pre, post, inner, h1, h2, h3, h4, h5⟩ := ih nlb p s' h
              refine ⟨hd :: pre, post, inner, by rw [h1]; rfl, ?_, h3, h4, h5⟩
              intro lb hlb
              rcases List.mem_cons.mp hlb with rfl | hlb
              · simp [nlbHasFree, hmap, hff]
              · exact h2 lb hlb
          | some p0 =>
              simp only [hff] at h
              injection h with ha hb hc
              subst ha; subst hb; subst hc
              exact ⟨[], tl, inner0, rfl, by simp, hmap, hff, rfl⟩

theorem getVacant_exhausted_spec (s : StoreState) (svcName : String) :
    ∀ (order : List String), GetVacantNLBAndPortForService s svcName order = .exhausted →
      ∀ lb, lb ∈ order → nlbHasFree s lb = false := by
  intro order
  induction order with
  | nil => intro _ lb hlb; simp at hlb
  | cons hd tl ih =>
      intro h lb hlb
      simp only [GetVacantNLBAndPortForService] at h
      rcases List.mem_cons.mp hlb with rfl | hlb
      · cases hmap : s.nlbAllocationMap lb with
        | none => simp [nlbHasFree, hmap]
        | some inner0 =>
            simp only [hmap] at h
            cases hff : firstFreePortInRange inner0 50 9000 with
            | none => simp [nlbHasFree, hmap, hff]
            | some p0 => simp only [hff] at h; exact VacantResult.noConfusion h
      · cases hmap : s.nlbAllocationMap hd with
        | none => simp only [hmap] at h; exact ih h lb hlb
        | some inner0 =>
            simp only [hmap] at h
            cases hff : firstFreePortInRange inner0 50 9000 with
            | none => simp only [hff] at h; exact ih h lb hlb
            | some p0 => simp only [hff] at h; exact VacantResult.noConfusion h

theorem assignWrite_eq (s : StoreState) (nlb : String) (p : Int)
    (svcName la ta : String) (inner : Int → Option String)
    (hmap : s.nlbAllocationMap nlb = some inner) :
    assignWrite s nlb p svcName la ta =
      .ok (setNlbSlot (svcMapSet s svcName (some ⟨la, ta, nlb, p, svcName⟩))
        nlb inner p svcName) := by
  unfold assignWrite
  rw [svcMapSet_nlbMap]
  simp only [hmap]

theorem assignWrite_panicked (s : StoreState) (nlb : String) (p : Int)
    (svcName la ta : String) (hmap : s.nlbAllocationMap nlb = none) :
    assignWrite s nlb p svcName la ta = .panicked := by
  unfold assignWrite
  rw [svcMapSet_nlbMap]
  simp only [hmap]

theorem assign_free (s : StoreState) (nlb : String) (p : Int)
    (svcName la ta : String) (inner : Int → Option String)
    (hmap : s.nlbAllocationMap nlb = some inner) (hf : inner p = none) :
    AssignNLBAndPortToServiceInNamespace s nlb p svcName la ta =
      .ok (setNlbSlot (svcMapSet s svcName (some ⟨la, ta, nlb, p, svcName⟩))
        nlb inner p svcName) := by
  unfold AssignNLBAndPortToServiceInNamespace
  have hl : nlbLookup s nlb p = none := by simp [nlbLookup, hmap, hf]
  simp only [hl]
  exact assignWrite_eq s nlb p svcName la ta inner hmap

theorem assign_self (s : StoreState) (nlb : String) (p : Int)
    (svcName la ta : String) (inner : Int → Option String)
    (hmap : s.nlbAllocationMap nlb = some inner) (hf : inner p = some svcName) :
    AssignNLBAndPortToServiceInNamespace s nlb p svcName la ta =
      .ok (setNlbSlot (svcMapSet s svcName (some ⟨la, ta, nlb, p, svcName⟩))
        nlb inner p svcName) := by
  unfold AssignNLBAndPortToServiceInNamespace
  have hl : nlbLookup s nlb p = some svcName := by simp [nlbLookup, hmap, hf]
  simp only [hl]
  rw [if_neg (by simp)]
  exact assignWrite_eq s nlb p svcName la ta inner hmap

theorem assign_conflict (s : StoreState) (nlb : String) (p : Int)
    (svcName la ta owner : String)
    (hocc : nlbLookup s nlb p = some owner) (hne : owner ≠ svcName) :
    AssignNLBAndPortToServiceInNamespace s nlb p svcName la ta =
      .conflict ("port reserved for svc " ++ owner) s := by
  unfold AssignNLBAndPortToServiceInNamespace
  simp only [hocc]
  rw [if_pos hne]

theorem assign_panicked (s : StoreState) (nlb : String) (p : Int)
    (svcName la ta : String) (hmap : s.nlbAllocationMap nlb = none) :
    AssignNLBAndPortToServiceInNamespace s nlb p svcName la ta = .panicked := by
  unfold AssignNLBAndPortToServiceInNamespace
  have hl : nlbLookup s nlb p = none := by simp [nlbLookup, hmap]
  simp only [hl]
  exact assignWrite_panicked s nlb p svcName la ta hmap

theorem assign_ok_inv (s s' : StoreState) (nlb : String) (p : Int)
    (svcName la ta : String)
    (h : AssignNLBAndPortToServiceInNamespace s nlb p svcName la ta = .ok s') :
    ∃ inner, s.nlbAllocationMap nlb = some inner ∧
      (inner p = none ∨ inner p = some svcName) ∧
      s' = setNlbSlot (svcMapSet s svcName (some ⟨la, ta, nlb, p, svcName⟩))
        nlb inner p svcName := by
  cases hmap : s.nlbAllocationMap nlb with
  | none =>
      rw [assign_panicked s nlb p svcName la ta hmap] at h
      exact AssignResult.noConfusion h
  | some inner =>
      cases hocc : inner p with
      | none =>
          rw [assign_free s nlb p svcName la ta inner hmap hocc] at h
          injection h with h
          exact ⟨inner, rfl, Or.inl hocc, h.symm⟩
      | some owner =>
          by_cases ho : owner = svcName
          · rw [ho] at hocc
            rw [assign_self s nlb p svcName la ta inner hmap hocc] at h
            injection h with h
            exact ⟨inner, rfl, Or.inr hocc, h.symm⟩
          · rw [assign_conflict s nlb p svcName la ta owner
              (by simp [nlbLookup, hmap, hocc]) ho] at h
            exact AssignResult.noConfusion h

theorem assign_conflict_inv (s s' : StoreState) (nlb : String) (p : Int)
    (svcName la ta msg : String)
    (h : AssignNLBAndPortToServiceInNamespace s nlb p svcName la ta = .conflict msg s') :
    s' = s := by
  cases hmap : s.nlbAllocationMap nlb with
  | none =>
      rw [assign_panicked s nlb p svcName la ta hmap] at h
      exact AssignResult.noConfusion h
  | some inner =>
      cases hocc : inner p with
      | none =>
          rw [assign_free s nlb p svcName la ta inner hmap hocc] at h
          exact AssignResult.noConfusion h
      | some owner =>
          by_cases ho : owner = svcName
          · rw [ho] at hocc
            rw [assign_self s nlb p svcName la ta inner hmap hocc] at h
            exact AssignResult.noConfusion h
          · rw [assign_conflict s nlb p svcName la ta owner
              (by simp [nlbLookup, hmap, hocc]) ho] at h
            injection h with h1 h2
            exact h2.symm

theorem release_none (s : StoreState) (svcName x : String) (y : Int)
    (h : s.serviceAllocationMap svcName = none) :
    ReleaseNLBAndPortForService s svcName x y = s := by
  unfold ReleaseNLBAndPortForService
  simp only [h]

theorem releaseInner_svcMap (s : StoreState) (val : Allocation) :
    (releaseInner s val).serviceAllocationMap = s.serviceAllocationMap := by
  unfold releaseInner
  split
  · rfl
  · split <;> rfl

theorem releaseInner_lookup (s : StoreState) (val : Allocation) (lb : String) (q : Int) :
    nlbLookup (releaseInner s val) lb q =
      if lb = val.nlb ∧ q = val.port then none else nlbLookup s lb q := by
  cases hm : s.nlbAllocationMap val.nlb with
  | none =>
      have hrel : releaseInner s val = s := by unfold releaseInner; simp only [hm]
      rw [hrel]
      by_cases hc : lb = val.nlb ∧ q = val.port
      · obtain ⟨rfl, rfl⟩ := hc
        simp [nlbLookup, hm]
      · rw [if_neg hc]
  | some inner =>
      cases hi : inner val.port with
      | none =>
          have hrel : releaseInner s val = s := by unfold releaseInner; simp only [hm, hi]
          rw [hrel]
          by_cases hc : lb = val.nlb ∧ q = val.port
          · obtain ⟨rfl, rfl⟩ := hc
            simp [nlbLookup, hm, hi]
          · rw [if_neg hc]
      | some w =>
          have hrel : releaseInner s val = delNlbSlot s val.nlb inner val.port := by
            unfold releaseInner; simp only [hm, hi]
          rw [hrel]
          by_cases hlb : lb = val.nlb
          · subst hlb
            by_cases hq : q = val.port
            · subst hq
              simp [nlbLookup, delNlbSlot]
            · simp [nlbLookup, delNlbSlot, hm, hq]
          · have hc : ¬(lb = val.nlb ∧ q = val.port) := fun hcon => hlb hcon.1
            rw [if_neg hc]
            simp [nlbLookup, delNlbSlot, hlb]

theorem release_svcMap (s : StoreState) (svcName x : String) (y : Int) (t : String) :
    (ReleaseNLBAndPortForService s svcName x y).serviceAllocationMap t =
      if t = svcName ∧ s.serviceAllocationMap svcName ≠ none then none
      else s.serviceAllocationMap t := by
  cases hval : s.serviceAllocationMap svcName with
  | none =>
      rw [release_none s svcName x y hval]
      simp [hval]
  | some val =>
      unfold ReleaseNLBAndPortForService
      simp only [hval]
      by_cases ht : t = svcName
      · subst ht
        simp [svcMapSet, hval]
      · simp only [svcMapSet, ht, if_false]
        rw [show (releaseInner s val).serviceAllocationMap t =
          s.serviceAllocationMap t from congrFun (releaseInner_svcMap s val) t]
        simp [ht]

theorem release_lookup (s : StoreState) (svcName x : String) (y : Int) (val : Allocation)
    (hval : s.serviceAllocationMap svcName = some val) (lb : String) (q : Int) :
    nlbLookup (ReleaseNLBAndPortForService s svcName x y) lb q =
      if lb = val.nlb ∧ q = val.port then none else nlbLookup s lb q := by
  unfold ReleaseNLBAndPortForService
  simp only [hval]
  rw [nlbLookup_svcMapSet]
  exact releaseInner_lookup s val lb q

theorem release_hosts (s : StoreState) (svcName x : String) (y : Int) :
    (ReleaseNLBAndPortForService s svcName x y).nlbHosts = s.nlbHosts := by
  unfold ReleaseNLBAndPortForService
  cases hval : s.serviceAllocationMap svcName with
  | none => rfl
  | some val =>
      show (svcMapSet (releaseInner s val) svcName none).nlbHosts = s.nlbHosts
      unfold releaseInner
      split
      · rfl
      · split <;> rfl

theorem inv_assign_state (s : StoreState) (nlb : String) (p : Int)
    (svcName la ta : String) (inner : Int → Option String)
    (hmap : s.nlbAllocationMap nlb = some inner)
    (hfree : inner p = none ∨ inner p = some svcName)
    (hInv0 : LedgerInv s) :
    LedgerInv (setNlbSlot (svcMapSet s svcName (some ⟨la, ta, nlb, p, svcName⟩))
      nlb inner p svcName) := by
  intro t b hb
  rw [setNlbSlot_svcMap] at hb
  rw [nlbLookup_setNlbSlot]
  by_cases ht : t = svcName
  · subst ht
    rw [svcMapSet_at] at hb
    injection hb with hb
    subst hb
    simp
  · rw [svcMapSet_ne s svcName _ t ht] at hb
    have hInv := hInv0 t b hb
    by_cases hlb : b.nlb = nlb
    · by_cases hq : b.port = p
      · exfalso
        rw [hlb, hq] at hInv
        rw [show nlbLookup s nlb p = inner p from by simp [nlbLookup, hmap]] at hInv
        rcases hfree with hf | hf <;> rw [hf] at hInv
        · exact Option.noConfusion hInv
        · injection hInv with h2
          exact ht h2.symm
      · rw [if_pos hlb, if_neg hq]
        rw [hlb] at hInv
        rw [show nlbLookup s nlb b.port = inner b.port from by simp [nlbLookup, hmap]] at hInv
        exact hInv
    · rw [if_neg hlb]
      exact hInv

theorem applyOp_inv (op : LedgerOp) (s s' : StoreState)
    (h0 : LedgerInv s) (h : applyOp op s = some s') : LedgerInv s' := by
  cases op with
  | assignOp nlb p svcName la ta =>
      simp only [applyOp] at h
      cases ha : AssignNLBAndPortToServiceInNamespace s nlb p svcName la ta with
      | ok s2 =>
          rw [ha] at h
          injection h with h
          subst h
          obtain ⟨inner, hmap, hfree, rfl⟩ := assign_ok_inv s s2 nlb p svcName la ta ha
          exact inv_assign_state s nlb p svcName la ta inner hmap hfree h0
      | conflict msg s2 =>
          rw [ha] at h
          injection h with h
          subst h
          rw [assign_conflict_inv s s2 nlb p svcName la ta msg ha]
          exact h0
      | panicked =>
          rw [ha] at h
          exact Option.noConfusion h
  | vacantOp svcName order =>
      simp only [applyOp] at h
      cases hv : GetVacantNLBAndPortForService s svcName order with
      | ok nlb p s2 =>
          rw [hv] at h
          injection h with h
          subst h
          obtain ⟨pre, post, inner, _, _, hmap, hff, rfl⟩ :=
            getVacant_ok_spec s svcName order nlb p s2 hv
          have hfree : inner p = none := (firstFree_some inner 50 9000 p hff).2.2.1
          intro t b hb
          rw [setNlbSlot_svcMap] at hb
          have hInv := h0 t b hb
          rw [nlbLookup_setNlbSlot]
          by_cases hlb : b.nlb = nlb
          · by_cases hq : b.port = p
            · exfalso
              rw [hlb, hq] at hInv
              rw [show nlbLookup s nlb p = inner p from by simp [nlbLookup, hmap]] at hInv
              rw [hfree] at hInv
              exact Option.noConfusion hInv
            · rw [if_pos hlb, if_neg hq]
              rw [hlb] at hInv
              rw [show nlbLookup s nlb b.port = inner b.port from
                by simp [nlbLookup, hmap]] at hInv
              exact hInv
          · rw [if_neg hlb]
            exact hInv
      | exhausted =>
          rw [hv] at h
          injection h with h
          subst h
          exact h0
  | releaseOp svcName nlb p =>
      simp only [applyOp] at h
      injection h with h
      subst h
      intro t b hb
      rw [release_svcMap] at hb
      by_cases hc : t = svcName ∧ s.serviceAllocationMap svcName ≠ none
      · rw [if_pos hc] at hb
        exact Option.noConfusion hb
      · rw [if_neg hc] at hb
        have hInv := h0 t b hb
        cases hval : s.serviceAllocationMap svcName with
        | none =>
            rw [release_none s svcName nlb p hval]
            exact hInv
        | some val =>
            rw [release_lookup s svcName nlb p val hval]
            by_cases hd : b.nlb = val.nlb ∧ b.port = val.port
            · exfalso
              have hSvc := h0 svcName val hval
              rw [hd.1, hd.2] at hInv
              rw [hInv] at hSvc
              injection hSvc with h2
              exact hc ⟨h2, by rw [hval]; exact fun hcon => Option.noConfusion hcon⟩
            · rw [if_neg hd]
              exact hInv

theorem applyOps_inv : ∀ (ops : List LedgerOp) (s s' : StoreState),
    LedgerInv s → applyOps ops s = some s' → LedgerInv s' := by
  intro ops
  induction ops with
  | nil =>
      intro s s' h0 h
      unfold applyOps at h
      injection h with h
      subst h
      exact h0
  | cons op ops ih =>
      intro s s' h0 h
      unfold applyOps at h
      cases ha : applyOp op s with
      | none => rw [ha] at h; exact Option.noConfusion h
      | some s1 => rw [ha] at h; exact ih s1 s' (applyOp_inv op s s1 h0 ha) h

theorem initialStore_inv (pool : List String) : LedgerInv (initialStore pool) := by
  intro t b hb
  exact Option.noConfusion hb

theorem atoiItoa_range :
    ∀ n : Nat, n < 50 → goAtoi (goItoa (9000 + (n : Int))) = some (9000 + (n : Int)) := by
  decide

theorem atoiItoa_port (p : Int) (h1 : 9000 ≤ p) (h2 : p < 9050) :
    goAtoi (goItoa p) = some p := by
  have hn : p = 9000 + (((p - 9000).toNat : Nat) : Int) := by omega
  rw [hn]
  exact atoiItoa_range (p - 9000).toNat (by omega)

theorem withBindingAnnots_type (svc : Service) (a h ps la ta : String) :
    (withBindingAnnots svc a h ps la ta).specTypeIsNodePort = svc.specTypeIsNodePort := rfl

theorem withBindingAnnots_nodePort (svc : Service) (a h ps la ta : String) :
    (withBindingAnnots svc a h ps la ta).nodePort = svc.nodePort := rfl

theorem withBindingAnnots_keys (svc : Service) (a h ps la ta : String) :
    (withBindingAnnots svc a h ps la ta).annotations nlbAnnotationNLBName = a ∧
    (withBindingAnnots svc a h ps la ta).annotations nlbAnnotationNLBHost = h ∧
    (withBindingAnnots svc a h ps la ta).annotations nlbAnnotationPort = ps ∧
    (withBindingAnnots svc a h ps la ta).annotations nlbAnnotationListener = la ∧
    (withBindingAnnots svc a h ps la ta).annotations nlbAnnotationTarget = ta := by
  refine ⟨?_, ?_, ?_, ?_, ?_⟩ <;>
    simp [withBindingAnnots, nlbAnnotationNLBName, nlbAnnotationNLBHost, nlbAnnotationPort,
      nlbAnnotationListener, nlbAnnotationTarget]

/-- The store as left by a successful AssignNLBAndPortToServiceInNamespace
executed on the state produced by a successful free-slot scan that chose
(nlb, p) for svcName while the inner map was inner. -/
def assignedState (s0 : StoreState) (inner : Int → Option String) (nlb : String) (p : Int)
    (svcName la ta : String) : StoreState :=
  setNlbSlot (svcMapSet (setNlbSlot s0 nlb inner p svcName) svcName
      (some ⟨la, ta, nlb, p, svcName⟩)) nlb
    (fun q => if q = p then some svcName else inner q) p svcName

theorem assignedState_svcMap_self (s0 : StoreState) (inner : Int → Option String)
    (nlb : String) (p : Int) (svcName la ta : String) :
    (assignedState s0 inner nlb p svcName la ta).serviceAllocationMap svcName =
      some ⟨la, ta, nlb, p, svcName⟩ := by
  simp [assignedState, setNlbSlot, svcMapSet]

theorem assignedState_svcMap_other (s0 : StoreState) (inner : Int → Option String)
    (nlb : String) (p : Int) (svcName la ta t : String) (ht : t ≠ svcName) :
    (assignedState s0 inner nlb p svcName la ta).serviceAllocationMap t =
      s0.serviceAllocationMap t := by
  simp [assignedState, setNlbSlot, svcMapSet, ht]

theorem assignedState_lookup_self (s0 : StoreState) (inner : Int → Option String)
    (nlb : String) (p : Int) (svcName la ta : String) :
    nlbLookup (assignedState s0 inner nlb p svcName la ta) nlb p = some svcName := by
  rw [assignedState, nlbLookup_setNlbSlot]
  simp

theorem assignedState_hosts (s0 : StoreState) (inner : Int → Option String)
    (nlb : String) (p : Int) (svcName la ta : String) :
    (assignedState s0 inner nlb p svcName la ta).nlbHosts = s0.nlbHosts := rfl

theorem assignedState_map_at (s0 : StoreState) (inner : Int → Option String)
    (nlb : String) (p : Int) (svcName la ta : String) :
    (assignedState s0 inner nlb p svcName la ta).nlbAllocationMap nlb =
      some (fun q => if q = p then some svcName
        else if q = p then some svcName else inner q) := by
  rw [assignedState, setNlbSlot_map_at]

theorem reconcile_fresh (s : StoreState) (aws : AwsOracle)
    (update : Service → Except UpdateErr Unit) (svc : Service)
    (svcName : String) (order : List String)
    (hNode : svc.specTypeIsNodePort = true)
    (hFresh : svc.annotations nlbAnnotationNLBName = "") :
    Reconcile s aws update (.found svc) svcName order =
      allocPath s aws update svc svcName order := by
  unfold Reconcile
  simp [hNode, hFresh]

theorem alloc_reached (s0 : StoreState) (svcName : String) (order : List String)
    (nlb : String) (p : Int) (s1 : StoreState) (la ta : String)
    (hVac : GetVacantNLBAndPortForService s0 svcName order = .ok nlb p s1) :
    ∃ inner, s0.nlbAllocationMap nlb = some inner ∧ inner p = none ∧
      9000 ≤ p ∧ p < 9050 ∧ s1 = setNlbSlot s0 nlb inner p svcName ∧
      AssignNLBAndPortToServiceInNamespace s1 nlb p svcName la ta =
        .ok (assignedState s0 inner nlb p svcName la ta) := by
  obtain ⟨pre, post, inner, _, _, hmap, hff, hs1⟩ :=
    getVacant_ok_spec s0 svcName order nlb p s1 hVac
  obtain ⟨hge, hlt, hfree, _⟩ := firstFree_some inner 50 9000 p hff
  refine ⟨inner, hmap, hfree, hge, by omega, hs1, ?_⟩
  subst hs1
  have hmap1 := setNlbSlot_map_at s0 nlb inner p svcName
  have hA := assign_self (setNlbSlot s0 nlb inner p svcName) nlb p svcName la ta
    (fun q => if q = p then some svcName else inner q) hmap1 (by simp)
  rw [hA]
  rfl

/-- Claim C10: for every service identity with no current allocation in the
ledger, GetListenerArnFor panics (nil-pointer dereference of the absent
Allocation) instead of returning an absent or empty result, while
GetAllocationForSVC returns none for the same input. -/
theorem c10_get_listener_arn_panics (s : StoreState) (name : String)
    (h : s.serviceAllocationMap name = none) :
    GetListenerArnFor s name = .panicked ∧ GetAllocationForSVC s name = none := by
  refine ⟨?_, ?_⟩
  · unfold GetListenerArnFor
    simp only [h]
  · unfold GetAllocationForSVC
    exact h

/-- Witness for c10_get_listener_arn_panics at a concrete empty store. -/
theorem c10_get_listener_arn_panics_witness :
    GetListenerArnFor (initialStore ["lb1"]) "ns/a" = .panicked ∧
    GetAllocationForSVC (initialStore ["lb1"]) "ns/a" = none :=
  c10_get_listener_arn_panics (initialStore ["lb1"]) "ns/a" rfl

/-- Claim C9: for every load-balancer name that is not a key of the
NlbAllocationMap pool, AssignNLBAndPortToServiceInNamespace does not return
an error value but panics (assignment to an entry of a nil inner map), and
therefore checkAllocationValidity — which feeds the nlb name read from the
service annotations straight into the assignment — panics as well once the
provider check passes. -/
theorem c9_assign_unknown_nlb_panics (s : StoreState) (aws : AwsOracle) (nlb : String)
    (p nodePort : Int) (svcName la ta : String)
    (hpool : s.nlbAllocationMap nlb = none)
    (hchk : aws.checkListener la ta nlb p nodePort = .ok ()) :
    AssignNLBAndPortToServiceInNamespace s nlb p svcName la ta = .panicked ∧
    checkAllocationValidity aws s svcName la ta nlb p nodePort = .panicked := by
  have hA := assign_panicked s nlb p svcName la ta hpool
  refine ⟨hA, ?_⟩
  unfold checkAllocationValidity
  simp only [hchk, hA]

/-- Witness for c9_assign_unknown_nlb_panics: a pool containing only lb1,
asked to re-reserve a pair on the unknown nlb lb2. -/
theorem c9_assign_unknown_nlb_panics_witness :
    AssignNLBAndPortToServiceInNamespace (initialStore ["lb1"]) "lb2" 9000 "ns/a" "L" "T" =
      .panicked ∧
    checkAllocationValidity awsAllOk (initialStore ["lb1"]) "ns/a" "L" "T" "lb2" 9000 30000 =
      .panicked :=
  c9_assign_unknown_nlb_panics (initialStore ["lb1"]) awsAllOk "lb2" 9000 30000 "ns/a"
    "L" "T" rfl rfl

/-- Claim C5: for every ledger state and every (loadBalancer, port,
serviceIdentity) with loadBalancer in the configured pool, reserve succeeds
when the pair is free or already owned by serviceIdentity, and when the pair
is owned by a different service it returns an error naming that owner and
returns with the store exactly as it was (both indices unchanged). -/
theorem c5_reserve_contract (s : StoreState) (inner : Int → Option String) (lb : String)
    (p : Int) (svcName la ta : String)
    (hpool : s.nlbAllocationMap lb = some inner) :
    ((inner p = none ∨ inner p = some svcName) →
      ∃ s', AssignNLBAndPortToServiceInNamespace s lb p svcName la ta = .ok s' ∧
        nlbLookup s' lb p = some svcName ∧
        s'.serviceAllocationMap svcName = some ⟨la, ta, lb, p, svcName⟩) ∧
    (∀ owner, inner p = some owner → owner ≠ svcName →
      AssignNLBAndPortToServiceInNamespace s lb p svcName la ta =
        .conflict ("port reserved for svc " ++ owner) s) := by
  constructor
  · intro hf
    refine ⟨setNlbSlot (svcMapSet s svcName (some ⟨la, ta, lb, p, svcName⟩)) lb inner p svcName,
      ?_, ?_, ?_⟩
    · rcases hf with hf | hf
      · exact assign_free s lb p svcName la ta inner hpool hf
      · exact assign_self s lb p svcName la ta inner hpool hf
    · rw [nlbLookup_setNlbSlot]
      simp
    · rw [setNlbSlot_svcMap]
      exact svcMapSet_at s svcName _
  · intro owner hocc hne
    exact assign_conflict s lb p svcName la ta owner (by simp [nlbLookup, hpool, hocc]) hne

/-- Witness for c5_reserve_contract: reserving a free pair on the one-nlb
pool succeeds. -/
theorem c5_reserve_contract_witness :
    ∃ s', AssignNLBAndPortToServiceInNamespace (initialStore ["lb1"]) "lb1" 9000 "ns/a"
      "L" "T" = .ok s' ∧
      nlbLookup s' "lb1" 9000 = some "ns/a" ∧
      s'.serviceAllocationMap "ns/a" = some ⟨"L", "T", "lb1", 9000, "ns/a"⟩ :=
  (c5_reserve_contract (initialStore ["lb1"]) (fun _ => none) "lb1" 9000 "ns/a" "L" "T"
    rfl).1 (Or.inl rfl)

/-- Claim C3 counterexample: when the provider reports not-found on deleting
the listener, DeleteListenerAndTargetArn returns that error, not success —
the adapter performs no not-found normalization. -/
theorem c3_notfound_not_normalized :
    elbNotFoundOnDelete.deleteListener "arn-l" = .error ⟨true, "ListenerNotFound"⟩ ∧
    DeleteListenerAndTargetArn elbNotFoundOnDelete "arn-l" "arn-t" =
      .error ⟨true, "ListenerNotFound"⟩ ∧
    DeleteListenerAndTargetArn elbNotFoundOnDelete "arn-l" "arn-t" ≠ .ok () := by
  refine ⟨rfl, rfl, ?_⟩
  intro hcon
  exact Except.noConfusion hcon

/-- Claim C3 amended: DeleteListenerAndTargetArn succeeds exactly when both
underlying deletes succeed, and it propagates every provider error — a
not-found error included — unchanged to the caller. -/
theorem c3_amended_error_propagation (elb : ElbApi) (la ta : String) :
    (DeleteListenerAndTargetArn elb la ta = .ok () ↔
      elb.deleteListener la = .ok () ∧ elb.deleteTargetGroup ta = .ok ()) ∧
    (∀ e, elb.deleteListener la = .error e →
      DeleteListenerAndTargetArn elb la ta = .error e) ∧
    (∀ e, elb.deleteListener la = .ok () → elb.deleteTargetGroup ta = .error e →
      DeleteListenerAndTargetArn elb la ta = .error e) := by
  cases h1 : elb.deleteListener la with
  | error e1 =>
      have hD : DeleteListenerAndTargetArn elb la ta = .error e1 := by
        unfold DeleteListenerAndTargetArn
        simp only [h1]
      refine ⟨?_, ?_, ?_⟩
      · rw [hD]
        constructor
        · intro hcon
          exact Except.noConfusion hcon
        · intro hcon
          exact hcon.1
      · intro e he
        injection he with he
        subst he
        exact hD
      · intro e hok _
        exact Except.noConfusion hok
  | ok u =>
      cases u
      cases h2 : elb.deleteTargetGroup ta with
      | error e2 =>
          have hD : DeleteListenerAndTargetArn elb la ta = .error e2 := by
            unfold DeleteListenerAndTargetArn
            simp only [h1, h2]
          refine ⟨?_, ?_, ?_⟩
          · rw [hD]
            constructor
            · intro hcon
              exact Except.noConfusion hcon
            · intro hcon
              exact hcon.2
          · intro e he
            exact Except.noConfusion he
          · intro e _ hg
            injection hg with hg
            subst hg
            exact hD
      | ok v =>
          cases v
          have hD : DeleteListenerAndTargetArn elb la ta = .ok () := by
            unfold DeleteListenerAndTargetArn
            simp only [h1, h2]
          refine ⟨?_, ?_, ?_⟩
          · rw [hD]
            exact ⟨fun _ => ⟨rfl, rfl⟩, fun _ => rfl⟩
          · intro e he
            exact Except.noConfusion he
          · intro e _ hg
            exact Except.noConfusion hg

/-- Witness for c3_amended_error_propagation: both deletes succeeding gives
success, and a not-found on the listener delete is propagated as the error. -/
theorem c3_amended_error_propagation_witness :
    DeleteListenerAndTargetArn elbAllOk "arn-l" "arn-t" = .ok () ∧
    DeleteListenerAndTargetArn elbNotFoundOnDelete "arn-l" "arn-t" =
      .error ⟨true, "ListenerNotFound"⟩ :=
  ⟨(c3_amended_error_propagation elbAllOk "arn-l" "arn-t").1.mpr ⟨rfl, rfl⟩,
   (c3_amended_error_propagation elbNotFoundOnDelete "arn-l" "arn-t").2.1
     ⟨true, "ListenerNotFound"⟩ rfl⟩

/-- Claim C4: for every sequence of ledger operations starting from the
freshly configured (empty) ledger, at no point do two distinct service
identities simultaneously hold the same (load-balancer, port) pair — where
holding means either owning an allocation record naming the pair or being
named as the owner in the pair-indexed side of the ledger. -/
theorem c4_no_double_occupancy (pool : List String) (ops : List LedgerOp)
    (s : StoreState) (t1 t2 lb : String) (p : Int)
    (hreach : applyOps ops (initialStore pool) = some s)
    (h1 : Holds s t1 lb p) (h2 : Holds s t2 lb p) : t1 = t2 := by
  have hInv := applyOps_inv ops (initialStore pool) s (initialStore_inv pool) hreach
  have key : ∀ t, Holds s t lb p → nlbLookup s lb p = some t := by
    intro t ht
    rcases ht with ⟨a, ha, hn, hp⟩ | ht
    · have hb := hInv t a ha
      rw [hn, hp] at hb
      exact hb
    · exact ht
  have k1 := key t1 h1
  have k2 := key t2 h2
  rw [k1] at k2
  exact Option.some.inj k2

/-- Witness for c4_no_double_occupancy at the state reached by one reserve
on the one-nlb pool, where ns/a holds (lb1, 9000) through both indices. -/
theorem c4_no_double_occupancy_witness : "ns/a" = "ns/a" :=
  c4_no_double_occupancy ["lb1"] [LedgerOp.assignOp "lb1" 9000 "ns/a" "L" "T"]
    c4wState "ns/a" "ns/a" "lb1" 9000 rfl (Or.inr rfl) (Or.inr rfl)

/-- Claim C6 counterexample: the scan of GetVacantNLBAndPortForService
follows the Go map iteration order of that run, which is not fixed: on the
same two-nlb all-free ledger, the iteration order a, b yields the pair
(a, 9000) while the equally legitimate iteration order b, a — a permutation
of the same key set — yields (b, 9000), so two runs on the same state need
not return the same pair. -/
theorem c6_map_order_nondeterminism :
    vacantPair (GetVacantNLBAndPortForService c6State "ns/x" ["a", "b"]) =
      some ("a", 9000) ∧
    vacantPair (GetVacantNLBAndPortForService c6State "ns/x" ["b", "a"]) =
      some ("b", 9000) ∧
    List.Perm ["a", "b"] ["b", "a"] ∧
    some (("a" : String), (9000 : Int)) ≠ some (("b" : String), (9000 : Int)) := by
  refine ⟨rfl, rfl, List.Perm.swap "b" "a" [], by decide⟩

/-- Claim C6 amended: for the load-balancer iteration order of one run, the
scan is deterministic and returns the first unoccupied pair in that order —
every earlier load balancer has no free port in 9000-9049, and on the chosen
load balancer every port below the returned one is occupied, the returned
port being free and in range; the load-balancer order itself is Go map
iteration order and may differ between runs. -/
theorem c6_first_free_in_iteration_order (s : StoreState) (svcName : String)
    (order : List String) (nlb : String) (p : Int) (s' : StoreState)
    (h : GetVacantNLBAndPortForService s svcName order = .ok nlb p s') :
    ∃ pre post inner, order = pre ++ nlb :: post ∧
      (∀ lb, lb ∈ pre → nlbHasFree s lb = false) ∧
      s.nlbAllocationMap nlb = some inner ∧
      inner p = none ∧ 9000 ≤ p ∧ p < 9050 ∧
      (∀ q, 9000 ≤ q → q < p → inner q ≠ none) ∧
      s' = setNlbSlot s nlb inner p svcName := by
  obtain ⟨pre, post, inner, h1, h2, h3, h4, h5⟩ :=
    getVacant_ok_spec s svcName order nlb p s' h
  obtain ⟨hge, hlt, hfree, hbusy⟩ := firstFree_some inner 50 9000 p h4
  exact ⟨pre, post, inner, h1, h2, h3, hfree, hge, by omega, hbusy, h5⟩

/-- Witness for c6_first_free_in_iteration_order on the two-nlb all-free
ledger scanned in the order a, b. -/
theorem c6_first_free_in_iteration_order_witness :
    ∃ pre post inner, (["a", "b"] : List String) = pre ++ "a" :: post ∧
      (∀ lb, lb ∈ pre → nlbHasFree c6State lb = false) ∧
      c6State.nlbAllocationMap "a" = some inner ∧
      inner 9000 = none ∧ (9000 : Int) ≤ 9000 ∧ (9000 : Int) < 9050 ∧
      (∀ q : Int, 9000 ≤ q → q < 9000 → inner q ≠ none) ∧
      c6ResState = setNlbSlot c6State "a" inner 9000 "ns/x" :=
  c6_first_free_in_iteration_order c6State "ns/x" ["a", "b"] "a" 9000 c6ResState rfl

/-- Claim C1 (code bug evidence): a NodePort service whose opt-in annotation
is absent — so not eligible for exposure — is nonetheless allocated by the
pass: the guard only logs "Skipping" without returning, so the reconciler
reserves (lb1, 9000) in the ledger, issues a provider create call and writes
the binding annotations, instead of terminating with no state change. -/
theorem c1_optin_not_enforced :
    svcNoOptIn.annotations serviceAnnotationKey ≠ "true" ∧
    svcNoOptIn.specTypeIsNodePort = true ∧
    rcCreateCalls (Reconcile (initialStore ["lb1"]) awsAllOk updateOk
      (.found svcNoOptIn) "ns/a" ["lb1"]) = [("lb1", 9000, 30000, "ns/a")] ∧
    nlbLookup (rcStore (Reconcile (initialStore ["lb1"]) awsAllOk updateOk
      (.found svcNoOptIn) "ns/a" ["lb1"])) "lb1" 9000 = some "ns/a" ∧
    (rcUpdateCalls (Reconcile (initialStore ["lb1"]) awsAllOk updateOk
      (.found svcNoOptIn) "ns/a" ["lb1"])).length = 1 := by
  refine ⟨by decide, rfl, rfl, rfl, rfl⟩

/-- Claim C2 (code bug evidence): after GetVacantNLBAndPortForService has
reserved (lb1, 9000) for ns/a and CreateNLBListenerForPort fails, the pass
calls ReleaseNLBAndPortForService with exactly that pair, but the release is
a no-op — it keys on the service index, which the scan never wrote — so the
pair is still occupied by ns/a in the ledger when the pass returns, not
unoccupied as the claim states. -/
theorem c2_failed_create_slot_leak :
    rcErr (Reconcile (initialStore ["lb1"]) awsCreateFails updateOk
      (.found svcOptedIn) "ns/a" ["lb1"]) = some "aws down" ∧
    rcRequeue (Reconcile (initialStore ["lb1"]) awsCreateFails updateOk
      (.found svcOptedIn) "ns/a" ["lb1"]) = true ∧
    rcCreateCalls (Reconcile (initialStore ["lb1"]) awsCreateFails updateOk
      (.found svcOptedIn) "ns/a" ["lb1"]) = [("lb1", 9000, 30000, "ns/a")] ∧
    nlbLookup (rcStore (Reconcile (initialStore ["lb1"]) awsCreateFails updateOk
      (.found svcOptedIn) "ns/a" ["lb1"])) "lb1" 9000 = some "ns/a" ∧
    (rcStore (Reconcile (initialStore ["lb1"]) awsCreateFails updateOk
      (.found svcOptedIn) "ns/a" ["lb1"])).serviceAllocationMap "ns/a" = none := by
  refine ⟨rfl, rfl, rfl, rfl, rfl⟩

/-- Claim C7: in a pass where provider creation succeeds and the annotation
write to the service record then fails, the reserved pair is released from
both ledger indices and DeleteListenerAndTargetArn is called on the
just-created listener and target-group handles; if that compensating
deletion itself fails, the pass returns a non-retryable result (requeue
false) carrying the deletion error. -/
theorem c7_compensating_rollback (s0 : StoreState) (aws : AwsOracle)
    (update : Service → Except UpdateErr Unit) (svc : Service) (svcName : String)
    (order : List String) (nlb : String) (p : Int) (s1 : StoreState) (la ta : String)
    (ue : UpdateErr)
    (hNode : svc.specTypeIsNodePort = true)
    (hFresh : svc.annotations nlbAnnotationNLBName = "")
    (hVac : GetVacantNLBAndPortForService s0 svcName order = .ok nlb p s1)
    (hCreate : aws.createNLBListenerForPort nlb p svc.nodePort svcName = .ok (la, ta))
    (hUpd : update (withBindingAnnots svc nlb (GetNLBHost s0 nlb) (goItoa p) la ta) =
      .error ue) :
    rcDeleteCalls (Reconcile s0 aws update (.found svc) svcName order) = [(la, ta)] ∧
    (rcStore (Reconcile s0 aws update (.found svc) svcName order)).serviceAllocationMap
      svcName = none ∧
    nlbLookup (rcStore (Reconcile s0 aws update (.found svc) svcName order)) nlb p = none ∧
    (∀ e2, aws.deleteListenerAndTargetArn la ta = .error e2 →
      rcRequeue (Reconcile s0 aws update (.found svc) svcName order) = false ∧
      rcErr (Reconcile s0 aws update (.found svc) svcName order) = some e2) := by
  obtain ⟨inner, hmap, hfree, hge, hlt, hs1, hAssign⟩ :=
    alloc_reached s0 svcName order nlb p s1 la ta hVac
  subst hs1
  rw [reconcile_fresh s0 aws update svc svcName order hNode hFresh]
  unfold allocPath
  simp only [hVac, hCreate, hAssign]
  rw [show GetNLBHost (assignedState s0 inner nlb p svcName la ta) nlb =
    GetNLBHost s0 nlb from rfl]
  simp only [hUpd]
  have hsm2 := assignedState_svcMap_self s0 inner nlb p svcName la ta
  have hS3svc : (ReleaseNLBAndPortForService (assignedState s0 inner nlb p svcName la ta)
      svcName "" 0).serviceAllocationMap svcName = none := by
    rw [release_svcMap]
    rw [if_pos ⟨rfl, by rw [hsm2]; exact fun hcon => Option.noConfusion hcon⟩]
  have hS3look : nlbLookup (ReleaseNLBAndPortForService
      (assignedState s0 inner nlb p svcName la ta) svcName "" 0) nlb p = none := by
    rw [release_lookup (assignedState s0 inner nlb p svcName la ta) svcName "" 0
      ⟨la, ta, nlb, p, svcName⟩ hsm2]
    rw [if_pos ⟨rfl, rfl⟩]
  cases hDel : aws.deleteListenerAndTargetArn la ta with
  | error e2 =>
      refine ⟨rfl, hS3svc, hS3look, ?_⟩
      intro e2' he2
      injection he2 with he2
      subst he2
      exact ⟨rfl, rfl⟩
  | ok u =>
      cases hnf : ue.isNotFound with
      | false =>
          refine ⟨rfl, hS3svc, hS3look, ?_⟩
          intro e2' he2
          exact Except.noConfusion he2
      | true =>
          refine ⟨rfl, hS3svc, hS3look, ?_⟩
          intro e2' he2
          exact Except.noConfusion he2

/-- Witness for c7_compensating_rollback: creation succeeds, the annotation
write fails, and the compensating delete also fails, giving a non-retryable
error with the pair freed. -/
theorem c7_compensating_rollback_witness :
    rcDeleteCalls (Reconcile (initialStore ["lb1"]) awsDeleteFails updateFails
      (.found svcOptedIn) "ns/a" ["lb1"]) = [("arn-l", "arn-t")] ∧
    (rcStore (Reconcile (initialStore ["lb1"]) awsDeleteFails updateFails
      (.found svcOptedIn) "ns/a" ["lb1"])).serviceAllocationMap "ns/a" = none ∧
    nlbLookup (rcStore (Reconcile (initialStore ["lb1"]) awsDeleteFails updateFails
      (.found svcOptedIn) "ns/a" ["lb1"])) "lb1" 9000 = none ∧
    rcRequeue (Reconcile (initialStore ["lb1"]) awsDeleteFails updateFails
      (.found svcOptedIn) "ns/a" ["lb1"]) = false ∧
    rcErr (Reconcile (initialStore ["lb1"]) awsDeleteFails updateFails
      (.found svcOptedIn) "ns/a" ["lb1"]) = some "delete down" := by
  have h := c7_compensating_rollback (initialStore ["lb1"]) awsDeleteFails updateFails
    svcOptedIn "ns/a" ["lb1"] "lb1" 9000 c7S1 "arn-l" "arn-t" ⟨false, "update failed"⟩
    rfl rfl rfl rfl rfl
  obtain ⟨h1, h2, h3, h4⟩ := h
  obtain ⟨h5, h6⟩ := h4 "delete down" rfl
  exact ⟨h1, h2, h3, h5, h6⟩

theorem reconcile_validity (s : StoreState) (aws : AwsOracle)
    (update : Service → Except UpdateErr Unit) (svc : Service)
    (svcName : String) (order : List String) (nlb : String) (p : Int)
    (inner2 : Int → Option String)
    (hNode : svc.specTypeIsNodePort = true)
    (hName : svc.annotations nlbAnnotationNLBName = nlb) (hNe : nlb ≠ "")
    (hAtoi : goAtoi (svc.annotations nlbAnnotationPort) = some p)
    (hCheck : aws.checkListener (svc.annotations nlbAnnotationListener)
      (svc.annotations nlbAnnotationTarget) nlb p svc.nodePort = .ok ())
    (hmap : s.nlbAllocationMap nlb = some inner2)
    (hself : inner2 p = some svcName) :
    Reconcile s aws update (.found svc) svcName order =
      .ok ⟨false, none,
        setNlbSlot (svcMapSet s svcName (some ⟨svc.annotations nlbAnnotationListener,
          svc.annotations nlbAnnotationTarget, nlb, p, svcName⟩)) nlb inner2 p svcName,
        [], [], []⟩ := by
  have hA := assign_self s nlb p svcName (svc.annotations nlbAnnotationListener)
    (svc.annotations nlbAnnotationTarget) inner2 hmap hself
  unfold Reconcile checkAllocationValidity
  simp [hNode, hName, hNe, hAtoi, hCheck, hA]

/-- Claim C8: a first pass that allocates, creates the listener and persists
the binding annotations, followed by a second pass on the service carrying
exactly those annotations with the provider unchanged (the recorded listener
validates), yields the same binding record and issues zero provider-mutating
calls and no annotation write on the second pass: the validation path only
re-reserves the pair in the ledger. -/
theorem c8_second_pass_idempotent (s0 : StoreState) (aws aws2 : AwsOracle)
    (update update2 : Service → Except UpdateErr Unit) (svc : Service) (svcName : String)
    (order order2 : List String) (nlb : String) (p : Int) (s1 : StoreState) (la ta : String)
    (hNode : svc.specTypeIsNodePort = true)
    (hFresh : svc.annotations nlbAnnotationNLBName = "")
    (hVac : GetVacantNLBAndPortForService s0 svcName order = .ok nlb p s1)
    (hCreate : aws.createNLBListenerForPort nlb p svc.nodePort svcName = .ok (la, ta))
    (hUpd : update (withBindingAnnots svc nlb (GetNLBHost s0 nlb) (goItoa p) la ta) = .ok ())
    (hNlbNe : nlb ≠ "")
    (hCheck : aws2.checkListener la ta nlb p svc.nodePort = .ok ()) :
    ∃ store2, Reconcile s0 aws update (.found svc) svcName order =
        .ok ⟨false, none, store2, [(nlb, p, svc.nodePort, svcName)], [],
          [withBindingAnnots svc nlb (GetNLBHost s0 nlb) (goItoa p) la ta]⟩ ∧
      store2.serviceAllocationMap svcName = some ⟨la, ta, nlb, p, svcName⟩ ∧
      ∃ store3, Reconcile store2 aws2 update2
          (.found (withBindingAnnots svc nlb (GetNLBHost s0 nlb) (goItoa p) la ta))
          svcName order2 = .ok ⟨false, none, store3, [], [], []⟩ ∧
        store3.serviceAllocationMap svcName = some ⟨la, ta, nlb, p, svcName⟩ := by
  obtain ⟨inner, hmap, hfree, hge, hlt, hs1, hAssign⟩ :=
    alloc_reached s0 svcName order nlb p s1 la ta hVac
  subst hs1
  refine ⟨assignedState s0 inner nlb p svcName la ta, ?_,
    assignedState_svcMap_self s0 inner nlb p svcName la ta, ?_⟩
  · rw [reconcile_fresh s0 aws update svc svcName order hNode hFresh]
    unfold allocPath
    simp only [hVac, hCreate, hAssign]
    rw [show GetNLBHost (assignedState s0 inner nlb p svcName la ta) nlb =
      GetNLBHost s0 nlb from rfl]
    simp only [hUpd]
  · obtain ⟨hName, hHost, hPort, hLst, hTgt⟩ :=
      withBindingAnnots_keys svc nlb (GetNLBHost s0 nlb) (goItoa p) la ta
    have hT : (withBindingAnnots svc nlb (GetNLBHost s0 nlb) (goItoa p) la
        ta).specTypeIsNodePort = true := by
      rw [withBindingAnnots_type]
      exact hNode
    have hAtoi2 : goAtoi ((withBindingAnnots svc nlb (GetNLBHost s0 nlb) (goItoa p) la
        ta).annotations nlbAnnotationPort) = some p := by
      rw [hPort]
      exact atoiItoa_port p hge hlt
    have hCheck2 : aws2.checkListener
        ((withBindingAnnots svc nlb (GetNLBHost s0 nlb) (goItoa p) la ta).annotations
          nlbAnnotationListener)
        ((withBindingAnnots svc nlb (GetNLBHost s0 nlb) (goItoa p) la ta).annotations
          nlbAnnotationTarget)
        nlb p (withBindingAnnots svc nlb (GetNLBHost s0 nlb) (goItoa p) la ta).nodePort =
        .ok () := by
      rw [hLst, hTgt, withBindingAnnots_nodePort]
      exact hCheck
    have hmap2 := assignedState_map_at s0 inner nlb p svcName la ta
    have hself2 : (fun q => if q = p then some svcName
        else if q = p then some svcName else inner q) p = some svcName := by simp
    have hRec2 := reconcile_validity (assignedState s0 inner nlb p svcName la ta) aws2
      update2 (withBindingAnnots svc nlb (GetNLBHost s0 nlb) (goItoa p) la ta) svcName
      order2 nlb p
      (fun q => if q = p then some svcName else if q = p then some svcName else inner q)
      hT hName hNlbNe hAtoi2 hCheck2 hmap2 hself2
    refine ⟨_, hRec2, ?_⟩
    rw [setNlbSlot_svcMap, svcMapSet_at, hLst, hTgt]

/-- Witness for c8_second_pass_idempotent: allocate on the one-nlb pool,
persist, then re-reconcile the annotated service with a validating
provider. -/
theorem c8_second_pass_idempotent_witness :
    ∃ store2, Reconcile (initialStore ["lb1"]) awsAllOk updateOk (.found svcOptedIn)
        "ns/a" ["lb1"] =
        .ok ⟨false, none, store2, [("lb1", 9000, 30000, "ns/a")], [],
          [withBindingAnnots svcOptedIn "lb1" (GetNLBHost (initialStore ["lb1"]) "lb1")
            (goItoa 9000) "arn-l" "arn-t"]⟩ ∧
      store2.serviceAllocationMap "ns/a" = some ⟨"arn-l", "arn-t", "lb1", 9000, "ns/a"⟩ ∧
      ∃ store3, Reconcile store2 awsAllOk updateOk
          (.found (withBindingAnnots svcOptedIn "lb1"
            (GetNLBHost (initialStore ["lb1"]) "lb1") (goItoa 9000) "arn-l" "arn-t"))
          "ns/a" [] = .ok ⟨false, none, store3, [], [], []⟩ ∧
        store3.serviceAllocationMap "ns/a" = some ⟨"arn-l", "arn-t", "lb1", 9000, "ns/a"⟩ :=
  c8_second_pass_idempotent (initialStore ["lb1"]) awsAllOk awsAllOk updateOk updateOk
    svcOptedIn "ns/a" ["lb1"] [] "lb1" 9000 c7S1 "arn-l" "arn-t"
    rfl rfl rfl rfl rfl (by decide) rfl
